import Mathlib

/-!
# dv_ros2_accumulation : the Accumulator node

A shallow embedding of `dv_ros2_accumulation/src/Accumulator.cpp`.

The node object is a record of its members (`m_params`, `m_accumulator`,
`m_slicer`, `m_event_queue`, `m_spin_thread`, the accumulation thread) plus the
list of image messages handed to `m_frame_publisher`.  Member functions are
functions on that record.  A member function that can throw returns the record
as it stands when the exception leaves the function, together with the
exception.

Things the source only uses (the dv-processing slicer and accumulator, the
message conversions of `dv_ros2_msgs`, the enumerator values and member
defaults declared in `Accumulator.h`) are parameters: `DvLib`, `SliceMethod`,
and the arguments of `Accumulator.construct`.
-/

namespace dv_ros2_accumulation

/-! ## Data -/

/-- One event of a `dv::EventStore`. -/
structure Event where
  x : Nat
  y : Nat
  timestamp : Int
  polarity : Bool
  deriving DecidableEq, Repr

/-- The `dv::EventStore` value: the events in order. -/
abbrev EventStore := List Event

/-- The `dv_ros2_msgs::msg::EventArray` message, as far as `eventCallback` reads it. -/
structure EventArray where
  width : Nat
  height : Nat
  events : List Event
  deriving DecidableEq, Repr

/-- The struct behind `m_params`; float members are carried as rationals, they are
only copied. -/
structure Params where
  accumulation_time : Int
  accumulation_number : Int
  synchronous_decay : Bool
  min_potential : Rat
  max_potential : Rat
  neutral_potential : Rat
  event_contribution : Rat
  rectify_polarity : Bool
  decay_param : Rat
  slice_method : Int
  decay_function : Int
  deriving DecidableEq, Repr

/-- What `m_node->get_parameter(name, out)` sees for each of the eleven names:
`none` when the call returns false, `some v` when it returns true and writes `v`. -/
structure ParameterStore where
  accumulation_time : Option Int
  accumulation_number : Option Int
  synchronous_decay : Option Bool
  min_potential : Option Rat
  max_potential : Option Rat
  neutral_potential : Option Rat
  event_contribution : Option Rat
  rectify_polarity : Option Bool
  decay_param : Option Rat
  slice_method : Option Int
  decay_function : Option Int
  deriving DecidableEq, Repr

/-- The integer values of the enumerators `SliceMethod::TIME` and
`SliceMethod::NUMBER` (declared in `Accumulator.h`), after `static_cast<int>`. -/
structure SliceMethod where
  TIME : Int
  NUMBER : Int
  deriving DecidableEq, Repr

/-- A `dv::Duration`: a signed 64-bit tick count, one tick being one microsecond. -/
structure Duration where
  microseconds : Int
  deriving DecidableEq, Repr

/-- A `std::function<void(const dv::EventStore &)>` as the node can pass one to the
slicer: bound to `std::bind(&Accumulator::slicerCallback, this, _1)`, or empty. -/
inductive Callback where
  | slicerCallback
  | empty
  deriving DecidableEq, Repr

/-- A job registered on the `dv::EventStreamSlicer`, with the arguments of the
registering call as they were passed. -/
inductive SliceJob where
  | everyTimeInterval (interval : Duration) (callback : Callback)
  | everyNumberOfEvents (n : Int) (callback : Callback)
  deriving DecidableEq, Repr

/-- The callback a job was registered with. -/
def SliceJob.callback : SliceJob → Callback
  | .everyTimeInterval _ cb => cb
  | .everyNumberOfEvents _ cb => cb

/-- The `dv::EventStreamSlicer` behind `m_slicer`: the jobs registered so far
(a job's id is its position) and the stores it has taken in so far. -/
structure EventStreamSlicer where
  jobs : List SliceJob
  accepted : List EventStore
  deriving DecidableEq, Repr

/-- The `std::make_unique<dv::EventStreamSlicer>()` value. -/
def EventStreamSlicer.new : EventStreamSlicer :=
  { jobs := [], accepted := [] }

/-- The `doEveryTimeInterval(interval, callback)` call: registers one more job. -/
def EventStreamSlicer.doEveryTimeInterval (sl : EventStreamSlicer) (interval : Duration)
    (cb : Callback) : EventStreamSlicer :=
  { sl with jobs := sl.jobs ++ [SliceJob.everyTimeInterval interval cb] }

/-- The `doEveryNumberOfEvents(n, callback)` call: registers one more job. -/
def EventStreamSlicer.doEveryNumberOfEvents (sl : EventStreamSlicer) (n : Int)
    (cb : Callback) : EventStreamSlicer :=
  { sl with jobs := sl.jobs ++ [SliceJob.everyNumberOfEvents n cb] }

/-- The `dv::Accumulator` behind `m_accumulator`: its size, each setting (`none`
until the setter has been called), and the slices it has accepted so far. -/
structure DvAccumulator where
  size : Nat × Nat
  eventContribution : Option Rat
  decayParam : Option Rat
  minPotential : Option Rat
  maxPotential : Option Rat
  neutralPotential : Option Rat
  rectifyPolarity : Option Bool
  synchronousDecay : Option Bool
  decayFunction : Option Int
  accepted : List EventStore
  deriving DecidableEq, Repr

/-- The `std::make_unique<dv::Accumulator>(cv::Size(width, height))` value. -/
def DvAccumulator.new (width height : Nat) : DvAccumulator :=
  { size := (width, height)
    eventContribution := none
    decayParam := none
    minPotential := none
    maxPotential := none
    neutralPotential := none
    rectifyPolarity := none
    synchronousDecay := none
    decayFunction := none
    accepted := [] }

/-- The `accept(events)` call of the `dv::Accumulator`. -/
def DvAccumulator.accept (a : DvAccumulator) (events : EventStore) : DvAccumulator :=
  { a with accepted := a.accepted ++ [events] }

/-- The eight setter calls at the head of `updateConfiguration`, in source order. -/
def DvAccumulator.applySettings (a : DvAccumulator) (p : Params) : DvAccumulator :=
  let a := { a with eventContribution := some p.event_contribution }
  let a := { a with decayParam := some p.decay_param }
  let a := { a with minPotential := some p.min_potential }
  let a := { a with maxPotential := some p.max_potential }
  let a := { a with neutralPotential := some p.neutral_potential }
  let a := { a with rectifyPolarity := some p.rectify_polarity }
  let a := { a with synchronousDecay := some p.synchronous_decay }
  { a with decayFunction := some p.decay_function }

/-- All eight accumulation settings of `a` have been set, to the values of `p`. -/
def DvAccumulator.Configured (a : DvAccumulator) (p : Params) : Prop :=
  a.eventContribution = some p.event_contribution ∧
  a.decayParam = some p.decay_param ∧
  a.minPotential = some p.min_potential ∧
  a.maxPotential = some p.max_potential ∧
  a.neutralPotential = some p.neutral_potential ∧
  a.rectifyPolarity = some p.rectify_polarity ∧
  a.synchronousDecay = some p.synchronous_decay ∧
  a.decayFunction = some p.decay_function

instance (a : DvAccumulator) (p : Params) : Decidable (a.Configured p) := by
  unfold DvAccumulator.Configured; infer_instance

/-- A `dv::Frame`. -/
structure Frame where
  image : List (List Nat)
  timestamp : Int
  deriving DecidableEq, Repr

/-- A `builtin_interfaces` time stamp. -/
structure RosTime where
  sec : Int
  nanosec : Nat
  deriving DecidableEq, Repr

/-- A `sensor_msgs::msg::Image`, as far as `accumulate` touches it. -/
structure ImageMsg where
  stamp : RosTime
  data : List (List Nat)
  deriving DecidableEq, Repr

/-- The functions the node calls and does not define.

* `toEventStore`, `toRosImageMessage`, `toRosTime`: the `dv_ros2_msgs` conversions.
* `slice jobs accepted store`: what `EventStreamSlicer::accept(store)` does on a
  slicer with these jobs that has taken in `accepted` before: it throws
  `std::out_of_range` (`Except.error`) before anything else happens, or it takes
  the store in and invokes callbacks, given as (job id, slice) pairs in order.
* `generateFrame`: `dv::Accumulator::generateFrame` on the accumulator as it stands. -/
structure DvLib where
  toEventStore : EventArray → EventStore
  slice : List SliceJob → List EventStore → EventStore → Except String (List (Nat × EventStore))
  generateFrame : DvAccumulator → Frame
  toRosImageMessage : List (List Nat) → ImageMsg
  toRosTime : Int → RosTime

/-- Modelled from the spec: the type of `m_event_queue` is declared in
`Accumulator.h`; the spec (4.4) has it an unbounded first-in first-out queue of
slices whose push never blocks and whose drain visits the queued slices oldest
first, removing each as it is processed. -/
abbrev SliceQueue := List EventStore

/-- Where the accumulation thread stands. -/
inductive ThreadState where
  | notStarted
  | check
  | drain
  | sleep
  | finished
  | joined
  deriving DecidableEq, Repr

/-- What ends a member function early: an exception leaving it, or the
dereference of a null `m_accumulator`, at which the process is lost. -/
inductive NodeError where
  | invalidArgument (message : String) (value : Int)
  | systemError
  | nullDereference
  deriving DecidableEq, Repr

/-- The node object. `published` lists the messages passed to
`m_frame_publisher->publish`, oldest first. -/
structure Node where
  m_params : Params
  m_accumulator : Option DvAccumulator
  m_slicer : EventStreamSlicer
  m_event_queue : SliceQueue
  m_spin_thread : Bool
  m_accumulation_thread : ThreadState
  published : List ImageMsg
  deriving DecidableEq, Repr

/-! ## Start-up -/

/-- The `EXIT_FAILURE` status. -/
def EXIT_FAILURE : Nat := 1

/-- The method `Accumulator::readParameters`: the eleven reads in source order, each
returning false at once when its parameter cannot be read. -/
def readParameters (store : ParameterStore) (p : Params) : Bool × Params :=
  match store.accumulation_time with
  | none => (false, p)
  | some v =>
  let p := { p with accumulation_time := v }
  match store.accumulation_number with
  | none => (false, p)
  | some v =>
  let p := { p with accumulation_number := v }
  match store.synchronous_decay with
  | none => (false, p)
  | some v =>
  let p := { p with synchronous_decay := v }
  match store.min_potential with
  | none => (false, p)
  | some v =>
  let p := { p with min_potential := v }
  match store.max_potential with
  | none => (false, p)
  | some v =>
  let p := { p with max_potential := v }
  match store.neutral_potential with
  | none => (false, p)
  | some v =>
  let p := { p with neutral_potential := v }
  match store.event_contribution with
  | none => (false, p)
  | some v =>
  let p := { p with event_contribution := v }
  match store.rectify_polarity with
  | none => (false, p)
  | some v =>
  let p := { p with rectify_polarity := v }
  match store.decay_param with
  | none => (false, p)
  | some v =>
  let p := { p with decay_param := v }
  match store.slice_method with
  | none => (false, p)
  | some v =>
  let p := { p with slice_method := v }
  match store.decay_function with
  | none => (false, p)
  | some v => (true, { p with decay_function := v })

/-- What the constructor leaves behind: the exit status when it called
`std::exit`, the parameters as read, and which of the three members of lines
20 to 22 it created. -/
structure Startup where
  exitStatus : Option Nat
  m_params : Params
  m_events_subscriber : Bool
  m_frame_publisher : Bool
  m_slicer : Option EventStreamSlicer
  deriving DecidableEq, Repr

/-- The constructor `Accumulator::Accumulator`. `defaults` are the member
initialisers of `m_params`. -/
def Accumulator.construct (defaults : Params) (store : ParameterStore) : Startup :=
  let r := readParameters store defaults
  if !r.1 then
    { exitStatus := some EXIT_FAILURE
      m_params := r.2
      m_events_subscriber := false
      m_frame_publisher := false
      m_slicer := none }
  else
    { exitStatus := none
      m_params := r.2
      m_events_subscriber := true
      m_frame_publisher := true
      m_slicer := some EventStreamSlicer.new }

/-- The node a completed constructor leaves: no accumulator yet, an empty queue,
no thread. `spin` is the member initialiser of `m_spin_thread`. -/
def Startup.node (st : Startup) (spin : Bool) : Option Node :=
  match st.exitStatus, st.m_slicer with
  | none, some sl =>
    some { m_params := st.m_params
           m_accumulator := none
           m_slicer := sl
           m_event_queue := []
           m_spin_thread := spin
           m_accumulation_thread := ThreadState.notStarted
           published := [] }
  | _, _ => none

/-! ## Member functions -/

/-- Conversion of a mathematical integer to `long long` (two's complement, 64 bits). -/
def toInt64 (v : Int) : Int :=
  (v + 2 ^ 63) % 2 ^ 64 - 2 ^ 63

/-- The argument `dv::Duration(m_params.accumulation_time * 1000LL)` of line 85. -/
def timeWindow (p : Params) : Duration :=
  { microseconds := toInt64 (p.accumulation_time * 1000) }

/-- The method `Accumulator::slicerCallback`. -/
def slicerCallback (s : Node) (events : EventStore) : Node :=
  { s with m_event_queue := s.m_event_queue ++ [events] }

/-- Invoking a callback; an empty one reaches no member function of the node. -/
def Callback.invoke : Callback → Node → EventStore → Node
  | .slicerCallback => dv_ros2_accumulation.slicerCallback
  | .empty => fun s _ => s

/-- The method `Accumulator::updateConfiguration`. Line 72 dereferences
`m_accumulator`: on a null pointer nothing after it is reached. -/
def updateConfiguration (ids : SliceMethod) (s : Node) : Node × Option NodeError :=
  match s.m_accumulator with
  | none => (s, some NodeError.nullDereference)
  | some a =>
  let s := { s with m_accumulator := some (a.applySettings s.m_params) }
  if s.m_params.slice_method = ids.TIME then
    ({ s with m_slicer :=
        s.m_slicer.doEveryTimeInterval (timeWindow s.m_params) Callback.slicerCallback }, none)
  else if s.m_params.slice_method = ids.NUMBER then
    ({ s with m_slicer :=
        s.m_slicer.doEveryNumberOfEvents s.m_params.accumulation_number Callback.slicerCallback },
      none)
  else
    (s, some (NodeError.invalidArgument "Unknown slicing method id" s.m_params.slice_method))

/-- The slicer invoking its callbacks: each fired slice goes to the callback of
the job with that id, when there is one. -/
def deliver (jobs : List SliceJob) : List (Nat × EventStore) → Node → Node
  | [], s => s
  | (id, events) :: rest, s =>
    match jobs[id]? with
    | some job => deliver jobs rest (job.callback.invoke s events)
    | none => deliver jobs rest s

/-- Lines 47 to 51 of `eventCallback`: on a null `m_accumulator`, construct it from
the batch's declared size and call `updateConfiguration`. -/
def ensureAccumulator (ids : SliceMethod) (s : Node) (events : EventArray) :
    Node × Option NodeError :=
  match s.m_accumulator with
  | none =>
    updateConfiguration ids
      { s with m_accumulator := some (DvAccumulator.new events.width events.height) }
  | some _ => (s, none)

/-- The call `m_slicer->accept(store)` inside the try block: `none` when the slicer
throws `std::out_of_range`, else the node after the slicer took the store in and
ran its callbacks. -/
def slicerAccept (lib : DvLib) (s : Node) (store : EventStore) : Option Node :=
  match lib.slice s.m_slicer.jobs s.m_slicer.accepted store with
  | .error _ => none
  | .ok fired =>
    some (deliver s.m_slicer.jobs fired
      { s with m_slicer := { s.m_slicer with accepted := s.m_slicer.accepted ++ [store] } })

/-- The method `Accumulator::eventCallback`. -/
def eventCallback (lib : DvLib) (ids : SliceMethod) (s : Node) (events : EventArray) :
    Node × Option NodeError :=
  let r := ensureAccumulator ids s events
  match r.2 with
  | some e => (r.1, some e)
  | none =>
    let store := lib.toEventStore events
    match slicerAccept lib r.1 store with
    | none => (r.1, none)
    | some s => (s, none)

/-- The body of the lambda given to `consume_all` in `accumulate`: the accumulator
afterwards and the message published. -/
def processSlice (lib : DvLib) (a : DvAccumulator) (events : EventStore) :
    DvAccumulator × ImageMsg :=
  let a := a.accept events
  let frame := lib.generateFrame a
  let msg := lib.toRosImageMessage frame.image
  (a, { msg with stamp := lib.toRosTime frame.timestamp })

/-- One step of the thread running `Accumulator::accumulate`: the loop test with
the null test on `m_accumulator`, one element of `consume_all`, or the sleep. -/
def accumulateStep (lib : DvLib) (s : Node) : Node :=
  match s.m_accumulation_thread with
  | .check =>
    if s.m_spin_thread then
      if s.m_accumulator.isSome then { s with m_accumulation_thread := .drain }
      else { s with m_accumulation_thread := .sleep }
    else { s with m_accumulation_thread := .finished }
  | .drain =>
    match s.m_event_queue, s.m_accumulator with
    | events :: rest, some a =>
      let r := processSlice lib a events
      { s with m_event_queue := rest
               m_accumulator := some r.1
               published := s.published ++ [r.2] }
    | _, _ => { s with m_accumulation_thread := .sleep }
  | .sleep => { s with m_accumulation_thread := .check }
  | _ => s

/-- The method `Accumulator::start`: spawns the thread. Assigning to a thread that
is still joinable ends the process; the node is left as it is then. -/
def start (s : Node) : Node :=
  match s.m_accumulation_thread with
  | .notStarted => { s with m_accumulation_thread := .check }
  | .joined => { s with m_accumulation_thread := .check }
  | _ => s

/-- The method `Accumulator::isRunning`. -/
def isRunning (s : Node) : Bool :=
  s.m_spin_thread

/-- The method `Accumulator::accumulate`, from where the thread stands: it runs on
its own for at most `fuel` steps, until it has left the while loop. -/
def accumulate (lib : DvLib) : Nat → Node → Node
  | 0, s => s
  | fuel + 1, s =>
    if s.m_accumulation_thread = .finished then s else accumulate lib fuel (accumulateStep lib s)

/-- The method `Accumulator::stop`: clears the flag and joins the thread. The join
lets the thread run until it has left `accumulate`; `none` when `fuel` steps
were not enough for that. Joining a thread that was never started, or was
joined already, throws. -/
def stop (lib : DvLib) (fuel : Nat) (s : Node) : Option (Node × Option NodeError) :=
  let s := { s with m_spin_thread := false }
  match s.m_accumulation_thread with
  | .notStarted => some (s, some NodeError.systemError)
  | .joined => some (s, some NodeError.systemError)
  | _ =>
    let s := accumulate lib fuel s
    if s.m_accumulation_thread = .finished then
      some ({ s with m_accumulation_thread := .joined }, none)
    else none

/-! ## Runs -/

/-- What can happen to a running node: a batch arrives, the accumulation thread
takes a step, or `start` is called. -/
inductive Step where
  | event (events : EventArray)
  | loop
  | start
  deriving DecidableEq, Repr

/-- One step of the node; an exception leaving `eventCallback` is dropped here. -/
def step (lib : DvLib) (ids : SliceMethod) (s : Node) : Step → Node
  | .event events => (eventCallback lib ids s events).1
  | .loop => accumulateStep lib s
  | .start => start s

/-- A run: the steps taken in order. -/
def run (lib : DvLib) (ids : SliceMethod) (s : Node) (steps : List Step) : Node :=
  steps.foldl (step lib ids) s

/-- The accumulator after accepting the slices in order. -/
def acceptAll (a : DvAccumulator) (slices : List EventStore) : DvAccumulator :=
  slices.foldl DvAccumulator.accept a

/-- The messages published when the slices are processed in order, starting from
accumulator `a`. -/
def framesOf (lib : DvLib) : DvAccumulator → List EventStore → List ImageMsg
  | _, [] => []
  | a, events :: rest => (processSlice lib a events).2 :: framesOf lib (processSlice lib a events).1 rest

/-- Every one of the eleven parameters can be read. -/
def ParameterStore.AllReadable (store : ParameterStore) : Prop :=
  store.accumulation_time.isSome ∧ store.accumulation_number.isSome ∧
  store.synchronous_decay.isSome ∧ store.min_potential.isSome ∧
  store.max_potential.isSome ∧ store.neutral_potential.isSome ∧
  store.event_contribution.isSome ∧ store.rectify_polarity.isSome ∧
  store.decay_param.isSome ∧ store.slice_method.isSome ∧ store.decay_function.isSome

instance (store : ParameterStore) : Decidable store.AllReadable := by
  unfold ParameterStore.AllReadable; infer_instance

/-! ## Sample values -/

/-- Member defaults used in the examples. -/
def sampleParams : Params :=
  { accumulation_time := 33
    accumulation_number := 100
    synchronous_decay := false
    min_potential := 0
    max_potential := 1
    neutral_potential := 0
    event_contribution := 1
    rectify_polarity := false
    decay_param := 1000
    slice_method := 0
    decay_function := 0 }

/-- A store holding every parameter, with the given enum values. -/
def sampleStore (slice_method decay_function : Int) : ParameterStore :=
  { accumulation_time := some 33
    accumulation_number := some 2
    synchronous_decay := some false
    min_potential := some 0
    max_potential := some 1
    neutral_potential := some 0
    event_contribution := some 1
    rectify_polarity := some false
    decay_param := some 1000
    slice_method := some slice_method
    decay_function := some decay_function }

/-- Enumerator values used in the examples. -/
def sampleIds : SliceMethod :=
  { TIME := 0, NUMBER := 1 }

/-- Time of the first event of a store, 0 when it is empty. -/
def lowestTime (store : EventStore) : Int :=
  (store.head?.map Event.timestamp).getD 0

/-- Time of the last event taken in so far, 0 when there is none. -/
def highestTime (accepted : List EventStore) : Int :=
  (accepted.flatten.getLast?.map Event.timestamp).getD 0

/-- The store starts before the last event taken in so far. -/
def outOfOrder (accepted : List EventStore) (store : EventStore) : Bool :=
  match accepted with
  | [] => false
  | _ :: _ => decide (lowestTime store < highestTime accepted)

/-- A small library instance used in the examples: a store that starts before the
last event already taken in is refused; otherwise every registered job fires once
with the whole store. The frame carries the time of the last event accepted and
one row holding the number of slices accepted. -/
def sampleLib : DvLib :=
  { toEventStore := fun events => events.events
    slice := fun jobs accepted store =>
      if outOfOrder accepted store then
        Except.error "Tried adding event store to store out of order. Ignoring packet."
      else Except.ok ((List.range jobs.length).map (fun id => (id, store)))
    generateFrame := fun a =>
      { image := [[a.accepted.length]], timestamp := highestTime a.accepted }
    toRosImageMessage := fun image => { stamp := { sec := 0, nanosec := 0 }, data := image }
    toRosTime := fun t => { sec := t / 1000000, nanosec := (t % 1000000).toNat * 1000 } }

/-- A batch of two events at times 10 and 20 on a 4 by 3 sensor. -/
def sampleBatch : EventArray :=
  { width := 4
    height := 3
    events := [{ x := 1, y := 1, timestamp := 10, polarity := true },
               { x := 2, y := 1, timestamp := 20, polarity := false }] }

/-- A node as the constructor leaves it, with the given parameters. -/
def freshNode (p : Params) : Node :=
  { m_params := p
    m_accumulator := none
    m_slicer := EventStreamSlicer.new
    m_event_queue := []
    m_spin_thread := true
    m_accumulation_thread := ThreadState.notStarted
    published := [] }

/-- A node whose thread is inside `consume_all`, with an accumulator and an empty queue. -/
def drainingNode : Node :=
  { m_params := sampleParams
    m_accumulator := some ((DvAccumulator.new 4 3).applySettings sampleParams)
    m_slicer := EventStreamSlicer.new
    m_event_queue := []
    m_spin_thread := true
    m_accumulation_thread := ThreadState.drain
    published := [] }

/-- The slices among `fired` that reach `slicerCallback`: those whose job id is
registered with that callback. -/
def delivered (jobs : List SliceJob) (fired : List (Nat × EventStore)) : List EventStore :=
  fired.filterMap (fun f =>
    if (jobs[f.1]?.map SliceJob.callback) = some Callback.slicerCallback then some f.2
    else none)

/-- A node as `eventCallback` has it when it calls `updateConfiguration`: the
accumulator just constructed, nothing set on it yet. -/
def constructedNode (p : Params) : Node :=
  { m_params := p
    m_accumulator := some (DvAccumulator.new 4 3)
    m_slicer := EventStreamSlicer.new
    m_event_queue := []
    m_spin_thread := true
    m_accumulation_thread := ThreadState.notStarted
    published := [] }

theorem readParameters_fst (store : ParameterStore) (p : Params) :
    (readParameters store p).1 = true ↔ store.AllReadable := by
  obtain ⟨a1, a2, a3, a4, a5, a6, a7, a8, a9, a10, a11⟩ := store
  unfold readParameters ParameterStore.AllReadable
  cases a1 <;> simp
  cases a2 <;> simp
  cases a3 <;> simp
  cases a4 <;> simp
  cases a5 <;> simp
  cases a6 <;> simp
  cases a7 <;> simp
  cases a8 <;> simp
  cases a9 <;> simp
  cases a10 <;> simp
  cases a11 <;> simp

theorem readParameters_enums (store : ParameterStore) (p : Params)
    (h : (readParameters store p).1 = true) :
    some (readParameters store p).2.slice_method = store.slice_method ∧
    some (readParameters store p).2.decay_function = store.decay_function := by
  obtain ⟨a1, a2, a3, a4, a5, a6, a7, a8, a9, a10, a11⟩ := store
  revert h
  unfold readParameters
  cases a1 <;> simp
  cases a2 <;> simp
  cases a3 <;> simp
  cases a4 <;> simp
  cases a5 <;> simp
  cases a6 <;> simp
  cases a7 <;> simp
  cases a8 <;> simp
  cases a9 <;> simp
  cases a10 <;> simp
  cases a11 <;> simp

/-- C8. `readParameters` returns true exactly when all eleven parameters can be
read; when one cannot, it returns false and the constructor exits with
`EXIT_FAILURE` having created neither the subscription, nor the publisher, nor
the slicer; when all can, the constructor creates the three and does not exit. -/
theorem readParameters_iff_all_readable (defaults : Params) (store : ParameterStore) :
    ((readParameters store defaults).1 = true ↔ store.AllReadable) ∧
    (¬ store.AllReadable →
      (readParameters store defaults).1 = false ∧
      (Accumulator.construct defaults store).exitStatus = some EXIT_FAILURE ∧
      (Accumulator.construct defaults store).m_events_subscriber = false ∧
      (Accumulator.construct defaults store).m_frame_publisher = false ∧
      (Accumulator.construct defaults store).m_slicer = none ∧
      ∀ spin, (Accumulator.construct defaults store).node spin = none) ∧
    (store.AllReadable →
      (Accumulator.construct defaults store).exitStatus = none ∧
      (Accumulator.construct defaults store).m_events_subscriber = true ∧
      (Accumulator.construct defaults store).m_frame_publisher = true ∧
      (Accumulator.construct defaults store).m_slicer = some EventStreamSlicer.new) := by
  have hiff := readParameters_fst store defaults
  refine ⟨hiff, ?_, ?_⟩
  · intro h
    have hf : (readParameters store defaults).1 = false := by
      cases hr : (readParameters store defaults).1
      · rfl
      · exact absurd (hiff.mp hr) h
    simp [Accumulator.construct, hf, Startup.node]
  · intro h
    have ht := hiff.mpr h
    simp [Accumulator.construct, ht]

/-- Witness for C8: a store without `decay_function`, and a complete one. -/
theorem readParameters_iff_all_readable_witness :
    (Accumulator.construct sampleParams
        { sampleStore 0 0 with decay_function := none }).exitStatus = some EXIT_FAILURE ∧
    (Accumulator.construct sampleParams (sampleStore 0 0)).m_slicer
      = some EventStreamSlicer.new :=
  ⟨((readParameters_iff_all_readable sampleParams
        { sampleStore 0 0 with decay_function := none }).2.1 (by decide)).2.1,
   ((readParameters_iff_all_readable sampleParams (sampleStore 0 0)).2.2 (by decide)).2.2.2⟩

/-! ## `updateConfiguration` -/

theorem toInt64_of_int32 (t : Int) (h : -2 ^ 31 ≤ t ∧ t < 2 ^ 31) :
    toInt64 (t * 1000) = 1000 * t := by
  unfold toInt64
  have h1 : (0 : Int) ≤ t * 1000 + 2 ^ 63 := by omega
  have h2 : t * 1000 + 2 ^ 63 < 2 ^ 64 := by omega
  rw [Int.emod_eq_of_lt h1 h2]
  omega

theorem deliver_eq (jobs : List SliceJob) (fired : List (Nat × EventStore)) (s : Node) :
    deliver jobs fired s
      = { s with m_event_queue := s.m_event_queue ++ delivered jobs fired } := by
  induction fired generalizing s with
  | nil => simp [deliver, delivered]
  | cons f rest ih =>
    obtain ⟨id, events⟩ := f
    unfold deliver
    cases hj : jobs[id]? with
    | none => simp [ih, delivered, hj]
    | some job =>
      cases hc : job.callback with
      | slicerCallback =>
        simp [ih, delivered, hj, hc, Callback.invoke, slicerCallback, List.filterMap_cons]
      | empty =>
        simp [ih, delivered, hj, hc, Callback.invoke, List.filterMap_cons]

theorem delivered_nil_jobs (fired : List (Nat × EventStore)) : delivered [] fired = [] := by
  simp [delivered]

/-- C3. Called on a node whose accumulator exists (as `eventCallback` calls it),
`updateConfiguration` applies the eight settings and throws invalid-argument,
carrying `slice_method`, exactly when `slice_method` is neither TIME nor NUMBER,
and then registers nothing; on TIME it registers the time-interval job, on
NUMBER the event-count job with count `accumulation_number`; every call that
does not throw registers exactly one job, whose callback is `slicerCallback`. -/
theorem updateConfiguration_policy (ids : SliceMethod) (s : Node) (a : DvAccumulator)
    (hacc : s.m_accumulator = some a) (hids : ids.TIME ≠ ids.NUMBER) :
    ((updateConfiguration ids s).2
        = some (NodeError.invalidArgument "Unknown slicing method id" s.m_params.slice_method)
      ↔ s.m_params.slice_method ≠ ids.TIME ∧ s.m_params.slice_method ≠ ids.NUMBER) ∧
    ((updateConfiguration ids s).2 ≠ none
      ↔ s.m_params.slice_method ≠ ids.TIME ∧ s.m_params.slice_method ≠ ids.NUMBER) ∧
    ((updateConfiguration ids s).2 ≠ none →
      (updateConfiguration ids s).1.m_slicer = s.m_slicer) ∧
    (s.m_params.slice_method = ids.TIME →
      (updateConfiguration ids s).2 = none ∧
      (updateConfiguration ids s).1.m_slicer.jobs = s.m_slicer.jobs ++
        [SliceJob.everyTimeInterval (timeWindow s.m_params) Callback.slicerCallback]) ∧
    (s.m_params.slice_method = ids.NUMBER →
      (updateConfiguration ids s).2 = none ∧
      (updateConfiguration ids s).1.m_slicer.jobs = s.m_slicer.jobs ++
        [SliceJob.everyNumberOfEvents s.m_params.accumulation_number Callback.slicerCallback]) ∧
    ((updateConfiguration ids s).2 = none →
      ∃ job, (updateConfiguration ids s).1.m_slicer.jobs = s.m_slicer.jobs ++ [job] ∧
        job.callback = Callback.slicerCallback) ∧
    (updateConfiguration ids s).1.m_accumulator = some (a.applySettings s.m_params) := by
  unfold updateConfiguration
  simp only [hacc]
  by_cases ht : s.m_params.slice_method = ids.TIME
  · simp [ht, hids, EventStreamSlicer.doEveryTimeInterval, SliceJob.callback]
  · by_cases hn : s.m_params.slice_method = ids.NUMBER
    · have hne : ids.NUMBER ≠ ids.TIME := fun h => hids h.symm
      simp [hn, hne, EventStreamSlicer.doEveryNumberOfEvents, SliceJob.callback]
    · simp [ht, hn]

/-- Witness for C3: the sample enumerators, on a node with its accumulator just
constructed and `slice_method` NUMBER. -/
theorem updateConfiguration_policy_witness :
    (updateConfiguration sampleIds
        (constructedNode { sampleParams with slice_method := 1 })).2 = none ∧
    (updateConfiguration sampleIds
        (constructedNode { sampleParams with slice_method := 1 })).1.m_slicer.jobs
      = [SliceJob.everyNumberOfEvents 100 Callback.slicerCallback] :=
  (updateConfiguration_policy sampleIds (constructedNode { sampleParams with slice_method := 1 })
    (DvAccumulator.new 4 3) rfl (by decide)).2.2.2.2.1 rfl

/-- C2, as the code has it. Under the TIME method the window handed to
`doEveryTimeInterval` is `accumulation_time * 1000` microseconds, for every
`accumulation_time` an `int` can hold: so for `updateConfiguration` on a node
whose accumulator exists, and so for the first `eventCallback` of a node, which
is where `updateConfiguration` is called. -/
theorem updateConfiguration_time_window (lib : DvLib) (ids : SliceMethod) (s : Node)
    (htime : s.m_params.slice_method = ids.TIME)
    (hint : -2 ^ 31 ≤ s.m_params.accumulation_time ∧ s.m_params.accumulation_time < 2 ^ 31) :
    (∀ a, s.m_accumulator = some a →
      (updateConfiguration ids s).2 = none ∧
      (updateConfiguration ids s).1.m_slicer.jobs = s.m_slicer.jobs ++
        [SliceJob.everyTimeInterval { microseconds := 1000 * s.m_params.accumulation_time }
          Callback.slicerCallback]) ∧
    (s.m_accumulator = none → ∀ events : EventArray,
      (eventCallback lib ids s events).2 = none ∧
      (eventCallback lib ids s events).1.m_slicer.jobs = s.m_slicer.jobs ++
        [SliceJob.everyTimeInterval { microseconds := 1000 * s.m_params.accumulation_time }
          Callback.slicerCallback]) := by
  have h := toInt64_of_int32 _ hint
  refine ⟨?_, ?_⟩
  · intro a ha
    simp [updateConfiguration, ha, htime, EventStreamSlicer.doEveryTimeInterval, timeWindow, h]
  · intro hnone events
    have hens : ensureAccumulator ids s events
        = ({ s with
              m_accumulator :=
                some ((DvAccumulator.new events.width events.height).applySettings s.m_params)
              m_slicer := { s.m_slicer with
                jobs := s.m_slicer.jobs ++
                  [SliceJob.everyTimeInterval
                    { microseconds := 1000 * s.m_params.accumulation_time }
                    Callback.slicerCallback] } }, none) := by
      simp [ensureAccumulator, hnone, updateConfiguration, htime,
        EventStreamSlicer.doEveryTimeInterval, timeWindow, h]
    unfold eventCallback
    rw [hens]
    simp only [slicerAccept]
    cases lib.slice _ _ (lib.toEventStore events) with
    | error e => simp
    | ok fired => simp [deliver_eq]

/-- Witness for C2 as the code has it: `accumulation_time = 33` gives 33000
microseconds, on a node with its accumulator just constructed and through the first
`eventCallback` of a fresh node. -/
theorem updateConfiguration_time_window_witness :
    ((updateConfiguration sampleIds (constructedNode sampleParams)).2 = none ∧
      (updateConfiguration sampleIds (constructedNode sampleParams)).1.m_slicer.jobs
        = [] ++ [SliceJob.everyTimeInterval { microseconds := 1000 * 33 }
            Callback.slicerCallback]) ∧
    ((eventCallback sampleLib sampleIds (freshNode sampleParams) sampleBatch).2 = none ∧
      (eventCallback sampleLib sampleIds (freshNode sampleParams) sampleBatch).1.m_slicer.jobs
        = [] ++ [SliceJob.everyTimeInterval { microseconds := 1000 * 33 }
            Callback.slicerCallback]) :=
  ⟨(updateConfiguration_time_window sampleLib sampleIds (constructedNode sampleParams) rfl
      (by decide)).1 (DvAccumulator.new 4 3) rfl,
   (updateConfiguration_time_window sampleLib sampleIds (freshNode sampleParams) rfl
      (by decide)).2 rfl sampleBatch⟩

/-- C2 fails as stated: with `accumulation_time = 33` under TIME the window handed
to `doEveryTimeInterval` is 33000 microseconds, not 33, both when
`updateConfiguration` runs on a node whose accumulator has just been constructed
and when it runs inside the first `eventCallback` of a fresh node. -/
theorem time_window_is_not_accumulation_time :
    (constructedNode sampleParams).m_params.slice_method = sampleIds.TIME ∧
    (constructedNode sampleParams).m_params.accumulation_time = 33 ∧
    (constructedNode sampleParams).m_accumulator = some (DvAccumulator.new 4 3) ∧
    (updateConfiguration sampleIds (constructedNode sampleParams)).2 = none ∧
    (updateConfiguration sampleIds (constructedNode sampleParams)).1.m_slicer.jobs
      = [SliceJob.everyTimeInterval { microseconds := 33000 } Callback.slicerCallback] ∧
    (updateConfiguration sampleIds (constructedNode sampleParams)).1.m_slicer.jobs
      ≠ [SliceJob.everyTimeInterval { microseconds := 33 } Callback.slicerCallback] ∧
    (eventCallback sampleLib sampleIds (freshNode sampleParams) sampleBatch).2 = none ∧
    (eventCallback sampleLib sampleIds (freshNode sampleParams) sampleBatch).1.m_slicer.jobs
      = [SliceJob.everyTimeInterval { microseconds := 33000 } Callback.slicerCallback] ∧
    (eventCallback sampleLib sampleIds (freshNode sampleParams) sampleBatch).1.m_slicer.jobs
      ≠ [SliceJob.everyTimeInterval { microseconds := 33 } Callback.slicerCallback] := by
  refine ⟨rfl, rfl, rfl, ?_, ?_, ?_, ?_, ?_, ?_⟩ <;> decide

/-! ## `eventCallback` -/

theorem ensureAccumulator_some (ids : SliceMethod) (s : Node) (events : EventArray)
    (a : DvAccumulator) (h : s.m_accumulator = some a) :
    ensureAccumulator ids s events = (s, none) := by
  simp [ensureAccumulator, h]

/-- What `eventCallback` does once the accumulator exists. -/
theorem eventCallback_some (lib : DvLib) (ids : SliceMethod) (s : Node) (events : EventArray)
    (a : DvAccumulator) (h : s.m_accumulator = some a) :
    (eventCallback lib ids s events).2 = none ∧
    (eventCallback lib ids s events).1 =
      match lib.slice s.m_slicer.jobs s.m_slicer.accepted (lib.toEventStore events) with
      | .error _ => s
      | .ok fired =>
        { s with
          m_slicer := { s.m_slicer with
            accepted := s.m_slicer.accepted ++ [lib.toEventStore events] }
          m_event_queue := s.m_event_queue ++ delivered s.m_slicer.jobs fired } := by
  unfold eventCallback
  rw [ensureAccumulator_some ids s events a h]
  simp only [slicerAccept]
  cases lib.slice s.m_slicer.jobs s.m_slicer.accepted (lib.toEventStore events) with
  | error e => simp
  | ok fired => simp [deliver_eq]

/-- What lines 47 to 51 do on a null accumulator. -/
theorem ensureAccumulator_none (ids : SliceMethod) (s : Node) (events : EventArray)
    (h : s.m_accumulator = none) :
    (ensureAccumulator ids s events).1.m_accumulator
      = some ((DvAccumulator.new events.width events.height).applySettings s.m_params) ∧
    (ensureAccumulator ids s events).1.m_params = s.m_params ∧
    (ensureAccumulator ids s events).1.m_event_queue = s.m_event_queue ∧
    (ensureAccumulator ids s events).1.published = s.published ∧
    (ensureAccumulator ids s events).1.m_spin_thread = s.m_spin_thread ∧
    (ensureAccumulator ids s events).1.m_accumulation_thread = s.m_accumulation_thread ∧
    (ensureAccumulator ids s events).1.m_slicer.accepted = s.m_slicer.accepted ∧
    ((ensureAccumulator ids s events).2 ≠ none →
      (ensureAccumulator ids s events).1.m_slicer = s.m_slicer) := by
  unfold ensureAccumulator updateConfiguration
  simp only [h]
  split_ifs <;>
    simp [EventStreamSlicer.doEveryTimeInterval, EventStreamSlicer.doEveryNumberOfEvents]

/-- The fields `eventCallback` never writes, and the accumulator it leaves. -/
theorem eventCallback_frame (lib : DvLib) (ids : SliceMethod) (s : Node) (events : EventArray) :
    (eventCallback lib ids s events).1.m_params = s.m_params ∧
    (eventCallback lib ids s events).1.published = s.published ∧
    (eventCallback lib ids s events).1.m_spin_thread = s.m_spin_thread ∧
    (eventCallback lib ids s events).1.m_accumulation_thread = s.m_accumulation_thread ∧
    (eventCallback lib ids s events).1.m_accumulator
      = (ensureAccumulator ids s events).1.m_accumulator := by
  unfold eventCallback
  cases hacc : s.m_accumulator with
  | some a =>
    rw [ensureAccumulator_some ids s events a hacc]
    simp only [slicerAccept]
    cases lib.slice s.m_slicer.jobs s.m_slicer.accepted (lib.toEventStore events) with
    | error e => simp
    | ok fired => simp [deliver_eq]
  | none =>
    obtain ⟨h1, h2, h3, h4, h5, h6, h7, h8⟩ := ensureAccumulator_none ids s events hacc
    cases he : (ensureAccumulator ids s events).2 with
    | some e => simp [he, h2, h4, h5, h6]
    | none =>
      simp only [slicerAccept]
      cases lib.slice (ensureAccumulator ids s events).1.m_slicer.jobs
          (ensureAccumulator ids s events).1.m_slicer.accepted (lib.toEventStore events) with
      | error e => simp [he, h2, h4, h5, h6]
      | ok fired => simp [deliver_eq, h2, h4, h5, h6, he]

/-! ## The accumulation thread -/

/-- The fields a thread step never writes. -/
theorem accumulateStep_frame (lib : DvLib) (s : Node) :
    (accumulateStep lib s).m_params = s.m_params ∧
    (accumulateStep lib s).m_slicer = s.m_slicer ∧
    (accumulateStep lib s).m_spin_thread = s.m_spin_thread := by
  unfold accumulateStep
  cases s.m_accumulation_thread <;> simp
  · split_ifs <;> simp
  · split <;> simp

/-- A thread step leaves the accumulator alone or has it accept the head of the queue. -/
theorem accumulateStep_accumulator (lib : DvLib) (s : Node) :
    ((accumulateStep lib s).m_accumulator = s.m_accumulator ∧
      (accumulateStep lib s).m_event_queue = s.m_event_queue ∧
      (accumulateStep lib s).published = s.published) ∨
    ∃ a events rest, s.m_accumulator = some a ∧ s.m_event_queue = events :: rest ∧
      s.m_accumulation_thread = ThreadState.drain ∧
      (accumulateStep lib s).m_accumulator = some (a.accept events) ∧
      (accumulateStep lib s).m_event_queue = rest ∧
      (accumulateStep lib s).published = s.published ++ [(processSlice lib a events).2] ∧
      (accumulateStep lib s).m_accumulation_thread = ThreadState.drain := by
  unfold accumulateStep
  cases hth : s.m_accumulation_thread
  case check => left; simp only []; split_ifs <;> simp
  case drain =>
    cases hq : s.m_event_queue with
    | nil => left; simp
    | cons events rest =>
      cases ha : s.m_accumulator with
      | none => left; simp
      | some a => right; exact ⟨a, events, rest, rfl, rfl, rfl, by simp [processSlice]⟩
  all_goals left; simp

theorem accept_size_configured (a : DvAccumulator) (events : EventStore) (p : Params) :
    (a.accept events).size = a.size ∧ (a.Configured p → (a.accept events).Configured p) := by
  simp [DvAccumulator.accept, DvAccumulator.Configured]

theorem applySettings_configured (a : DvAccumulator) (p : Params) :
    (a.applySettings p).Configured p ∧ (a.applySettings p).size = a.size ∧
    (a.applySettings p).accepted = a.accepted := by
  simp [DvAccumulator.applySettings, DvAccumulator.Configured]

theorem step_params (lib : DvLib) (ids : SliceMethod) (s : Node) (st : Step) :
    (step lib ids s st).m_params = s.m_params := by
  cases st with
  | event events => exact (eventCallback_frame lib ids s events).1
  | loop => exact (accumulateStep_frame lib s).1
  | start =>
    show (start s).m_params = s.m_params
    unfold start; split <;> rfl

theorem run_params (lib : DvLib) (ids : SliceMethod) (steps : List Step) (s : Node) :
    (run lib ids s steps).m_params = s.m_params := by
  induction steps generalizing s with
  | nil => rfl
  | cons st rest ih =>
    have h : run lib ids s (st :: rest) = run lib ids (step lib ids s st) rest := rfl
    rw [h, ih, step_params]

/-- An accumulator that exists keeps its size and its settings through any step. -/
theorem step_keeps_accumulator (lib : DvLib) (ids : SliceMethod) (s : Node) (st : Step)
    (sz : Nat × Nat) (p : Params)
    (h : ∃ a, s.m_accumulator = some a ∧ a.size = sz ∧ a.Configured p) :
    ∃ a, (step lib ids s st).m_accumulator = some a ∧ a.size = sz ∧ a.Configured p := by
  obtain ⟨a, ha, hsz, hc⟩ := h
  cases st with
  | event events =>
    refine ⟨a, ?_, hsz, hc⟩
    show (eventCallback lib ids s events).1.m_accumulator = some a
    rw [(eventCallback_frame lib ids s events).2.2.2.2, ensureAccumulator_some ids s events a ha]
    exact ha
  | loop =>
    show ∃ a, (accumulateStep lib s).m_accumulator = some a ∧ a.size = sz ∧ a.Configured p
    rcases accumulateStep_accumulator lib s with h | ⟨a2, events, rest, ha2, _, _, hacc, _⟩
    · exact ⟨a, by rw [h.1, ha], hsz, hc⟩
    · have : a2 = a := by rw [ha] at ha2; exact (Option.some.inj ha2).symm
      subst this
      exact ⟨a2.accept events, hacc,
        by rw [(accept_size_configured a2 events p).1, hsz],
        (accept_size_configured a2 events p).2 hc⟩
  | start =>
    refine ⟨a, ?_, hsz, hc⟩
    show (start s).m_accumulator = some a
    unfold start; split <;> exact ha

theorem run_keeps_accumulator (lib : DvLib) (ids : SliceMethod) (steps : List Step) (s : Node)
    (sz : Nat × Nat) (p : Params)
    (h : ∃ a, s.m_accumulator = some a ∧ a.size = sz ∧ a.Configured p) :
    ∃ a, (run lib ids s steps).m_accumulator = some a ∧ a.size = sz ∧ a.Configured p := by
  induction steps generalizing s with
  | nil => exact h
  | cons st rest ih =>
    exact ih (step lib ids s st) (step_keeps_accumulator lib ids s st sz p h)

theorem run_events_accumulator (lib : DvLib) (ids : SliceMethod) (later : List EventArray)
    (s : Node) (a : DvAccumulator) (h : s.m_accumulator = some a) :
    (run lib ids s (later.map Step.event)).m_accumulator = some a := by
  induction later generalizing s with
  | nil => exact h
  | cons events rest ih =>
    apply ih (step lib ids s (Step.event events))
    show (eventCallback lib ids s events).1.m_accumulator = some a
    rw [(eventCallback_frame lib ids s events).2.2.2.2, ensureAccumulator_some ids s events a h]
    exact h

/-- C4. On a node without accumulator, the first `eventCallback` constructs it with
the size the batch declares (and applies the settings); every later
`eventCallback`, whatever size its batch declares, leaves the accumulator as it
is; and through any run of batches and thread steps the accumulator keeps that
size and those settings. -/
theorem accumulator_constructed_once (lib : DvLib) (ids : SliceMethod) (s : Node)
    (first : EventArray) (h : s.m_accumulator = none) :
    (eventCallback lib ids s first).1.m_accumulator
      = some ((DvAccumulator.new first.width first.height).applySettings s.m_params) ∧
    ((DvAccumulator.new first.width first.height).applySettings s.m_params).size
      = (first.width, first.height) ∧
    (∀ later : List EventArray,
      (run lib ids (eventCallback lib ids s first).1 (later.map Step.event)).m_accumulator
        = (eventCallback lib ids s first).1.m_accumulator) ∧
    (∀ steps : List Step, ∃ a,
      (run lib ids (eventCallback lib ids s first).1 steps).m_accumulator = some a ∧
      a.size = (first.width, first.height) ∧ a.Configured s.m_params) := by
  have h1 : (eventCallback lib ids s first).1.m_accumulator
      = some ((DvAccumulator.new first.width first.height).applySettings s.m_params) := by
    rw [(eventCallback_frame lib ids s first).2.2.2.2]
    exact (ensureAccumulator_none ids s first h).1
  have h2 := applySettings_configured (DvAccumulator.new first.width first.height) s.m_params
  have hsz : ((DvAccumulator.new first.width first.height).applySettings s.m_params).size
      = (first.width, first.height) := by rw [h2.2.1]; rfl
  refine ⟨h1, hsz, ?_, ?_⟩
  · intro later
    rw [h1]
    exact run_events_accumulator lib ids later _ _ h1
  · intro steps
    exact run_keeps_accumulator lib ids steps _ _ _ ⟨_, h1, hsz, h2.1⟩

/-- Witness for C4: a fresh node, a 4 by 3 batch, then a batch declaring 640 by 480. -/
theorem accumulator_constructed_once_witness :
    (run sampleLib sampleIds (eventCallback sampleLib sampleIds (freshNode sampleParams) sampleBatch).1
        ([{ sampleBatch with width := 640, height := 480 }].map Step.event)).m_accumulator
      = (eventCallback sampleLib sampleIds (freshNode sampleParams) sampleBatch).1.m_accumulator :=
  (accumulator_constructed_once sampleLib sampleIds (freshNode sampleParams) sampleBatch rfl).2.2.1
    [{ sampleBatch with width := 640, height := 480 }]

/-! ## Errors of `eventCallback` -/

theorem eventCallback_snd (lib : DvLib) (ids : SliceMethod) (s : Node) (events : EventArray) :
    (eventCallback lib ids s events).2 = (ensureAccumulator ids s events).2 := by
  unfold eventCallback
  cases he : (ensureAccumulator ids s events).2 with
  | some e => simp [he]
  | none =>
    cases hs : slicerAccept lib (ensureAccumulator ids s events).1 (lib.toEventStore events)
      <;> simp [he, hs]

theorem ensureAccumulator_none_snd (ids : SliceMethod) (s : Node) (events : EventArray)
    (h : s.m_accumulator = none) :
    (ensureAccumulator ids s events).2 =
      if s.m_params.slice_method = ids.TIME ∨ s.m_params.slice_method = ids.NUMBER then none
      else some (NodeError.invalidArgument "Unknown slicing method id" s.m_params.slice_method) := by
  unfold ensureAccumulator updateConfiguration
  simp only [h]
  by_cases ht : s.m_params.slice_method = ids.TIME
  · simp [ht]
  · by_cases hn : s.m_params.slice_method = ids.NUMBER
    · rw [if_neg ht, if_pos hn]; simp [hn]
    · rw [if_neg ht, if_neg hn]; simp [ht, hn]

/-- The node the constructor leaves when every parameter can be read. -/
theorem construct_node (defaults : Params) (store : ParameterStore) (spin : Bool)
    (h : store.AllReadable) :
    (Accumulator.construct defaults store).node spin
      = some { m_params := (readParameters store defaults).2
               m_accumulator := none
               m_slicer := EventStreamSlicer.new
               m_event_queue := []
               m_spin_thread := spin
               m_accumulation_thread := ThreadState.notStarted
               published := [] } := by
  have ht := (readParameters_fst store defaults).mpr h
  simp [Accumulator.construct, ht, Startup.node]

/-- C1, as the code has it. Whenever all eleven parameters can be read, start-up
succeeds whatever values `slice_method` and `decay_function` hold; the node it
leaves carries those values; its first `eventCallback` throws invalid-argument
exactly when `slice_method` is neither TIME nor NUMBER, and hands
`decay_function` to the accumulator unchecked. -/
theorem startup_does_not_check_enums (lib : DvLib) (ids : SliceMethod) (defaults : Params)
    (store : ParameterStore) (spin : Bool) (first : EventArray) (h : store.AllReadable) :
    (Accumulator.construct defaults store).exitStatus = none ∧
    ∃ n, (Accumulator.construct defaults store).node spin = some n ∧
      some n.m_params.slice_method = store.slice_method ∧
      some n.m_params.decay_function = store.decay_function ∧
      n.m_accumulator = none ∧
      (eventCallback lib ids n first).2 =
        (if n.m_params.slice_method = ids.TIME ∨ n.m_params.slice_method = ids.NUMBER then none
         else some (NodeError.invalidArgument "Unknown slicing method id"
                n.m_params.slice_method)) ∧
      (eventCallback lib ids n first).1.m_accumulator.map DvAccumulator.decayFunction
        = some (some n.m_params.decay_function) := by
  have ht := (readParameters_fst store defaults).mpr h
  have hen := readParameters_enums store defaults ht
  refine ⟨by simp [Accumulator.construct, ht], _, construct_node defaults store spin h,
    hen.1, hen.2, rfl, ?_, ?_⟩
  · rw [eventCallback_snd]
    exact ensureAccumulator_none_snd ids _ first rfl
  · rw [(eventCallback_frame lib ids _ first).2.2.2.2,
      (ensureAccumulator_none ids _ first rfl).1]
    simp [DvAccumulator.applySettings]

/-- Witness for C1 as the code has it: a complete store with `slice_method = 7` and
`decay_function = 99`. -/
theorem startup_does_not_check_enums_witness :
    (Accumulator.construct sampleParams (sampleStore 7 99)).exitStatus = none :=
  (startup_does_not_check_enums sampleLib sampleIds sampleParams (sampleStore 7 99) true
    sampleBatch (by decide)).1

/-- C1 fails as stated: with `slice_method = 7` (neither TIME = 0 nor NUMBER = 1)
and `decay_function = 99` the constructor does not exit and creates subscription,
publisher and slicer; the value 7 is reported only by the first `eventCallback`. -/
theorem startup_accepts_unknown_enum :
    (7 : Int) ≠ sampleIds.TIME ∧ (7 : Int) ≠ sampleIds.NUMBER ∧
    (Accumulator.construct sampleParams (sampleStore 7 99)).exitStatus = none ∧
    (Accumulator.construct sampleParams (sampleStore 7 99)).m_events_subscriber = true ∧
    (Accumulator.construct sampleParams (sampleStore 7 99)).m_frame_publisher = true ∧
    (Accumulator.construct sampleParams (sampleStore 7 99)).m_slicer
      = some EventStreamSlicer.new ∧
    (Accumulator.construct sampleParams (sampleStore 7 99)).node true
      = some (freshNode (readParameters (sampleStore 7 99) sampleParams).2) ∧
    (eventCallback sampleLib sampleIds
        (freshNode (readParameters (sampleStore 7 99) sampleParams).2) sampleBatch).2
      = some (NodeError.invalidArgument "Unknown slicing method id" 7) := by
  refine ⟨?_, ?_, ?_, ?_, ?_, ?_, ?_, ?_⟩ <;> decide

/-- A node whose first `eventCallback` threw on the slicing method: the accumulator
exists, no job is registered, nothing is queued, nothing was published. -/
theorem step_keeps_unconfigured_slicer (lib : DvLib) (ids : SliceMethod) (s : Node) (st : Step)
    (h : s.m_accumulator.isSome ∧ s.m_slicer.jobs = [] ∧ s.m_event_queue = [] ∧
      s.published = []) :
    (step lib ids s st).m_accumulator.isSome ∧ (step lib ids s st).m_slicer.jobs = [] ∧
    (step lib ids s st).m_event_queue = [] ∧ (step lib ids s st).published = [] := by
  obtain ⟨hacc, hjobs, hq, hpub⟩ := h
  obtain ⟨a, ha⟩ := Option.isSome_iff_exists.mp hacc
  cases st with
  | event events =>
    have he := (eventCallback_some lib ids s events a ha).2
    show (eventCallback lib ids s events).1.m_accumulator.isSome ∧
      (eventCallback lib ids s events).1.m_slicer.jobs = [] ∧
      (eventCallback lib ids s events).1.m_event_queue = [] ∧
      (eventCallback lib ids s events).1.published = []
    rw [he]
    cases lib.slice s.m_slicer.jobs s.m_slicer.accepted (lib.toEventStore events) with
    | error e => exact ⟨hacc, hjobs, hq, hpub⟩
    | ok fired => simp [ha, hjobs, hq, hpub, delivered_nil_jobs]
  | loop =>
    show (accumulateStep lib s).m_accumulator.isSome ∧ (accumulateStep lib s).m_slicer.jobs = [] ∧
      (accumulateStep lib s).m_event_queue = [] ∧ (accumulateStep lib s).published = []
    rcases accumulateStep_accumulator lib s with h | ⟨a2, events, rest, _, hq2, _⟩
    · rw [h.1, h.2.1, h.2.2, (accumulateStep_frame lib s).2.1]
      exact ⟨hacc, hjobs, hq, hpub⟩
    · rw [hq] at hq2; cases hq2
  | start =>
    show (start s).m_accumulator.isSome ∧ (start s).m_slicer.jobs = [] ∧
      (start s).m_event_queue = [] ∧ (start s).published = []
    unfold start; split <;> exact ⟨hacc, hjobs, hq, hpub⟩

theorem run_keeps_unconfigured_slicer (lib : DvLib) (ids : SliceMethod) (steps : List Step)
    (s : Node)
    (h : s.m_accumulator.isSome ∧ s.m_slicer.jobs = [] ∧ s.m_event_queue = [] ∧
      s.published = []) :
    (run lib ids s steps).m_accumulator.isSome ∧ (run lib ids s steps).m_slicer.jobs = [] ∧
    (run lib ids s steps).m_event_queue = [] ∧ (run lib ids s steps).published = [] := by
  induction steps generalizing s with
  | nil => exact h
  | cons st rest ih => exact ih (step lib ids s st) (step_keeps_unconfigured_slicer lib ids s st h)

/-- C10. On a node as the constructor leaves it whose `slice_method` is neither
TIME nor NUMBER, the first `eventCallback` throws invalid-argument and leaves
the accumulator constructed with its eight settings applied, the slicer without
job and the batch not handed over. Through every later run no job is registered,
nothing is queued and nothing is published, and every later `eventCallback`
throws nothing, leaves the accumulator alone and hands its batch to the job-less
slicer. -/
theorem invalid_slice_method_raised_once (lib : DvLib) (ids : SliceMethod) (s : Node)
    (first : EventArray)
    (hacc : s.m_accumulator = none) (hjobs : s.m_slicer.jobs = [])
    (hq : s.m_event_queue = []) (hpub : s.published = [])
    (hsm : s.m_params.slice_method ≠ ids.TIME ∧ s.m_params.slice_method ≠ ids.NUMBER) :
    (eventCallback lib ids s first).2
      = some (NodeError.invalidArgument "Unknown slicing method id" s.m_params.slice_method) ∧
    (eventCallback lib ids s first).1.m_accumulator
      = some ((DvAccumulator.new first.width first.height).applySettings s.m_params) ∧
    ((DvAccumulator.new first.width first.height).applySettings s.m_params).Configured
      s.m_params ∧
    (eventCallback lib ids s first).1.m_slicer = s.m_slicer ∧
    ∀ steps : List Step,
      (run lib ids (eventCallback lib ids s first).1 steps).m_slicer.jobs = [] ∧
      (run lib ids (eventCallback lib ids s first).1 steps).m_event_queue = [] ∧
      (run lib ids (eventCallback lib ids s first).1 steps).published = [] ∧
      ∀ later : EventArray,
        (eventCallback lib ids (run lib ids (eventCallback lib ids s first).1 steps) later).2
          = none ∧
        (eventCallback lib ids (run lib ids (eventCallback lib ids s first).1 steps)
            later).1.m_accumulator
          = (run lib ids (eventCallback lib ids s first).1 steps).m_accumulator ∧
        (eventCallback lib ids (run lib ids (eventCallback lib ids s first).1 steps)
            later).1.m_slicer.accepted
          = (match lib.slice []
                (run lib ids (eventCallback lib ids s first).1 steps).m_slicer.accepted
                (lib.toEventStore later) with
            | .error _ => (run lib ids (eventCallback lib ids s first).1 steps).m_slicer.accepted
            | .ok _ =>
              (run lib ids (eventCallback lib ids s first).1 steps).m_slicer.accepted
                ++ [lib.toEventStore later]) := by
  have herr : (ensureAccumulator ids s first).2
      = some (NodeError.invalidArgument "Unknown slicing method id" s.m_params.slice_method) := by
    rw [ensureAccumulator_none_snd ids s first hacc]
    simp [hsm.1, hsm.2]
  have hen := ensureAccumulator_none ids s first hacc
  have hfst : (eventCallback lib ids s first).1 = (ensureAccumulator ids s first).1 := by
    unfold eventCallback; simp [herr]
  have hsl : (ensureAccumulator ids s first).1.m_slicer = s.m_slicer :=
    hen.2.2.2.2.2.2.2 (by rw [herr]; simp)
  refine ⟨by rw [eventCallback_snd, herr], by rw [hfst]; exact hen.1,
    (applySettings_configured _ _).1, by rw [hfst]; exact hsl, ?_⟩
  intro steps
  have hinv := run_keeps_unconfigured_slicer lib ids steps (eventCallback lib ids s first).1
    (by
      rw [hfst, hen.1, hsl, hen.2.2.1, hen.2.2.2.1]
      exact ⟨rfl, hjobs, hq, hpub⟩)
  obtain ⟨hs, hj, hqq, hp⟩ := hinv
  refine ⟨hj, hqq, hp, ?_⟩
  intro later
  obtain ⟨a, ha⟩ := Option.isSome_iff_exists.mp hs
  have h := eventCallback_some lib ids _ later a ha
  refine ⟨h.1, ?_, ?_⟩
  · rw [(eventCallback_frame lib ids _ later).2.2.2.2, ensureAccumulator_some ids _ later a ha]
  · rw [h.2, hj]
    cases lib.slice [] (run lib ids (eventCallback lib ids s first).1 steps).m_slicer.accepted
      (lib.toEventStore later) <;> simp

/-- Witness for C10: the node the constructor leaves for `slice_method = 7`. -/
theorem invalid_slice_method_raised_once_witness :
    (eventCallback sampleLib sampleIds
        (freshNode { sampleParams with slice_method := 7 }) sampleBatch).2
      = some (NodeError.invalidArgument "Unknown slicing method id" 7) :=
  (invalid_slice_method_raised_once sampleLib sampleIds
    (freshNode { sampleParams with slice_method := 7 }) sampleBatch rfl rfl rfl rfl
    (by decide)).1

/-! ## Configuration precedes every slice -/

theorem step_keeps_configured (lib : DvLib) (ids : SliceMethod) (s : Node) (st : Step)
    (h : (s.m_accumulator = none ∧ s.m_event_queue = []) ∨
      ∃ a, s.m_accumulator = some a ∧ a.Configured s.m_params) :
    ((step lib ids s st).m_accumulator = none ∧ (step lib ids s st).m_event_queue = []) ∨
      ∃ a, (step lib ids s st).m_accumulator = some a ∧
        a.Configured (step lib ids s st).m_params := by
  rw [step_params]
  rcases h with ⟨hacc, hq⟩ | ⟨a, ha, hc⟩
  · cases st with
    | event events =>
      right
      refine ⟨_, ?_, (applySettings_configured
        (DvAccumulator.new events.width events.height) s.m_params).1⟩
      show (eventCallback lib ids s events).1.m_accumulator = _
      rw [(eventCallback_frame lib ids s events).2.2.2.2]
      exact (ensureAccumulator_none ids s events hacc).1
    | loop =>
      left
      show (accumulateStep lib s).m_accumulator = none ∧ (accumulateStep lib s).m_event_queue = []
      rcases accumulateStep_accumulator lib s with h | ⟨a2, _, _, ha2, _⟩
      · rw [h.1, h.2.1]; exact ⟨hacc, hq⟩
      · rw [hacc] at ha2; cases ha2
    | start =>
      left
      show (start s).m_accumulator = none ∧ (start s).m_event_queue = []
      unfold start; split <;> exact ⟨hacc, hq⟩
  · right
    obtain ⟨a2, h1, _, h3⟩ := step_keeps_accumulator lib ids s st a.size s.m_params ⟨a, ha, rfl, hc⟩
    exact ⟨a2, h1, h3⟩

theorem run_keeps_configured (lib : DvLib) (ids : SliceMethod) (steps : List Step) (s : Node)
    (h : (s.m_accumulator = none ∧ s.m_event_queue = []) ∨
      ∃ a, s.m_accumulator = some a ∧ a.Configured s.m_params) :
    ((run lib ids s steps).m_accumulator = none ∧ (run lib ids s steps).m_event_queue = []) ∨
      ∃ a, (run lib ids s steps).m_accumulator = some a ∧
        a.Configured (run lib ids s steps).m_params := by
  induction steps generalizing s with
  | nil => exact h
  | cons st rest ih => exact ih (step lib ids s st) (step_keeps_configured lib ids s st h)

/-- C9. In every state reached from a node as the constructor leaves it (no
accumulator, empty queue) by any interleaving of `eventCallback` calls and
steps of the accumulation thread: a non-empty queue implies that the
accumulator exists with all eight settings applied; an accumulator that exists
has them applied; so a thread step in which the accumulator accepts a slice
finds it configured. -/
theorem queued_slice_implies_configured (lib : DvLib) (ids : SliceMethod) (s : Node)
    (steps : List Step) (hacc : s.m_accumulator = none) (hq : s.m_event_queue = []) :
    ((run lib ids s steps).m_event_queue ≠ [] →
      ∃ a, (run lib ids s steps).m_accumulator = some a ∧
        a.Configured (run lib ids s steps).m_params) ∧
    (∀ a, (run lib ids s steps).m_accumulator = some a →
      a.Configured (run lib ids s steps).m_params) ∧
    (∀ a events,
      (run lib ids s steps).m_accumulator = some a →
      (accumulateStep lib (run lib ids s steps)).m_accumulator = some (a.accept events) →
      a.Configured (run lib ids s steps).m_params) := by
  have h := run_keeps_configured lib ids steps s (Or.inl ⟨hacc, hq⟩)
  have h2 : ∀ a, (run lib ids s steps).m_accumulator = some a →
      a.Configured (run lib ids s steps).m_params := by
    intro a ha
    rcases h with ⟨hn, _⟩ | ⟨a2, ha2, hc⟩
    · rw [hn] at ha; cases ha
    · rw [ha] at ha2; cases ha2; exact hc
  refine ⟨?_, h2, fun a _ ha _ => h2 a ha⟩
  intro hne
  rcases h with ⟨_, hqe⟩ | h
  · exact absurd hqe hne
  · exact h

/-- Witness for C9: a fresh node after one batch, which queues a slice. -/
theorem queued_slice_implies_configured_witness :
    (run sampleLib sampleIds (freshNode sampleParams) [Step.event sampleBatch]).m_event_queue
      ≠ [] ∧
    ∃ a, (run sampleLib sampleIds (freshNode sampleParams)
        [Step.event sampleBatch]).m_accumulator = some a ∧
      a.Configured (run sampleLib sampleIds (freshNode sampleParams)
        [Step.event sampleBatch]).m_params :=
  ⟨by decide,
   (queued_slice_implies_configured sampleLib sampleIds (freshNode sampleParams)
      [Step.event sampleBatch] rfl rfl).1 (by decide)⟩

/-! ## The queue: one frame per slice, in order -/

theorem accumulate_finished (lib : DvLib) (fuel : Nat) (s : Node)
    (h : s.m_accumulation_thread = ThreadState.finished) : accumulate lib fuel s = s := by
  cases fuel with
  | zero => rfl
  | succ n => unfold accumulate; simp [h]

theorem accumulate_check (lib : DvLib) (fuel : Nat) (s : Node)
    (hth : s.m_accumulation_thread = ThreadState.check) (hspin : s.m_spin_thread = false)
    (hfuel : 1 ≤ fuel) :
    accumulate lib fuel s = { s with m_accumulation_thread := ThreadState.finished } := by
  obtain ⟨n, rfl⟩ : ∃ n, fuel = n + 1 := ⟨fuel - 1, by omega⟩
  unfold accumulate
  have hstep : accumulateStep lib s = { s with m_accumulation_thread := ThreadState.finished } := by
    unfold accumulateStep; simp [hth, hspin]
  rw [if_neg (by rw [hth]; decide), hstep, accumulate_finished lib n _ rfl]

theorem accumulate_sleep (lib : DvLib) (fuel : Nat) (s : Node)
    (hth : s.m_accumulation_thread = ThreadState.sleep) (hspin : s.m_spin_thread = false)
    (hfuel : 2 ≤ fuel) :
    accumulate lib fuel s = { s with m_accumulation_thread := ThreadState.finished } := by
  obtain ⟨n, rfl⟩ : ∃ n, fuel = n + 1 := ⟨fuel - 1, by omega⟩
  unfold accumulate
  have hstep : accumulateStep lib s = { s with m_accumulation_thread := ThreadState.check } := by
    unfold accumulateStep; simp [hth]
  rw [if_neg (by rw [hth]; decide), hstep,
    accumulate_check lib n { s with m_accumulation_thread := ThreadState.check } rfl hspin
      (by omega)]

/-- With the flag cleared, a thread inside `consume_all` finishes the queue it is
draining, publishing one frame per slice, and then leaves `accumulate`. -/
theorem accumulate_drain (lib : DvLib) (queue : List EventStore) (fuel : Nat) (s : Node)
    (a : DvAccumulator)
    (hth : s.m_accumulation_thread = ThreadState.drain) (hspin : s.m_spin_thread = false)
    (ha : s.m_accumulator = some a) (hq : s.m_event_queue = queue)
    (hfuel : queue.length + 3 ≤ fuel) :
    accumulate lib fuel s
      = { s with m_event_queue := []
                 m_accumulator := some (acceptAll a queue)
                 published := s.published ++ framesOf lib a queue
                 m_accumulation_thread := ThreadState.finished } := by
  induction queue generalizing s a fuel with
  | nil =>
    obtain ⟨n, rfl⟩ : ∃ n, fuel = n + 1 := ⟨fuel - 1, by simp at hfuel; omega⟩
    unfold accumulate
    have hstep : accumulateStep lib s = { s with m_accumulation_thread := ThreadState.sleep } := by
      unfold accumulateStep; simp [hth, hq]
    rw [if_neg (by rw [hth]; decide), hstep,
      accumulate_sleep lib n { s with m_accumulation_thread := ThreadState.sleep } rfl hspin
        (by simp at hfuel; omega)]
    cases s
    simp only [] at ha hq
    simp [framesOf, acceptAll, ha, hq]
  | cons events rest ih =>
    obtain ⟨n, rfl⟩ : ∃ n, fuel = n + 1 := ⟨fuel - 1, by simp at hfuel; omega⟩
    unfold accumulate
    have hstep : accumulateStep lib s
        = { s with m_event_queue := rest
                   m_accumulator := some (a.accept events)
                   published := s.published ++ [(processSlice lib a events).2] } := by
      unfold accumulateStep
      simp [hth, hq, ha, processSlice]
    rw [if_neg (by rw [hth]; decide),
      ih n (accumulateStep lib s) (a.accept events) (by rw [hstep]; exact hth)
        (by rw [hstep]; exact hspin) (by rw [hstep]) (by rw [hstep])
        (by simp at hfuel; omega), hstep]
    simp [framesOf, acceptAll, processSlice]

theorem accumulate_drain_null (lib : DvLib) (fuel : Nat) (s : Node)
    (hth : s.m_accumulation_thread = ThreadState.drain) (hspin : s.m_spin_thread = false)
    (ha : s.m_accumulator = none) (hfuel : 3 ≤ fuel) :
    accumulate lib fuel s = { s with m_accumulation_thread := ThreadState.finished } := by
  obtain ⟨n, rfl⟩ : ∃ n, fuel = n + 1 := ⟨fuel - 1, by omega⟩
  unfold accumulate
  have hstep : accumulateStep lib s = { s with m_accumulation_thread := ThreadState.sleep } := by
    unfold accumulateStep
    simp only [hth, ha]
    cases s.m_event_queue <;> rfl
  rw [if_neg (by rw [hth]; decide), hstep,
    accumulate_sleep lib n { s with m_accumulation_thread := ThreadState.sleep } rfl hspin
      (by omega)]

theorem stop_eq (lib : DvLib) (fuel : Nat) (s r : Node)
    (hth : s.m_accumulation_thread ≠ ThreadState.notStarted ∧
      s.m_accumulation_thread ≠ ThreadState.joined)
    (hrun : accumulate lib fuel { s with m_spin_thread := false } = r)
    (hfin : r.m_accumulation_thread = ThreadState.finished) :
    stop lib fuel s = some ({ r with m_accumulation_thread := ThreadState.joined }, none) := by
  unfold stop
  cases hcase : s.m_accumulation_thread
  case notStarted => exact absurd hcase hth.1
  case joined => exact absurd hcase hth.2
  all_goals
    simp only [hcase] at hrun ⊢
    rw [hrun]
    simp [hfin]

/-- Once the flag is cleared and the thread joined, nothing publishes any more. -/
theorem step_after_stop (lib : DvLib) (ids : SliceMethod) (s : Node) (st : Step)
    (h : s.m_spin_thread = false ∧
      (s.m_accumulation_thread = ThreadState.joined ∨
        s.m_accumulation_thread = ThreadState.check ∨
        s.m_accumulation_thread = ThreadState.finished)) :
    ((step lib ids s st).m_spin_thread = false ∧
      ((step lib ids s st).m_accumulation_thread = ThreadState.joined ∨
        (step lib ids s st).m_accumulation_thread = ThreadState.check ∨
        (step lib ids s st).m_accumulation_thread = ThreadState.finished)) ∧
    (step lib ids s st).published = s.published := by
  obtain ⟨hspin, hth⟩ := h
  cases st with
  | event events =>
    have hf := eventCallback_frame lib ids s events
    show ((eventCallback lib ids s events).1.m_spin_thread = false ∧ _) ∧
      (eventCallback lib ids s events).1.published = s.published
    rw [hf.2.1, hf.2.2.1]
    show (_ ∧ ((eventCallback lib ids s events).1.m_accumulation_thread = _ ∨
      (eventCallback lib ids s events).1.m_accumulation_thread = _ ∨
      (eventCallback lib ids s events).1.m_accumulation_thread = _)) ∧ _
    rw [hf.2.2.2.1]
    exact ⟨⟨hspin, hth⟩, rfl⟩
  | loop =>
    show ((accumulateStep lib s).m_spin_thread = false ∧
      ((accumulateStep lib s).m_accumulation_thread = ThreadState.joined ∨
        (accumulateStep lib s).m_accumulation_thread = ThreadState.check ∨
        (accumulateStep lib s).m_accumulation_thread = ThreadState.finished)) ∧
      (accumulateStep lib s).published = s.published
    unfold accumulateStep
    rcases hth with h | h | h <;> simp [h, hspin]
  | start =>
    show ((start s).m_spin_thread = false ∧
      ((start s).m_accumulation_thread = ThreadState.joined ∨
        (start s).m_accumulation_thread = ThreadState.check ∨
        (start s).m_accumulation_thread = ThreadState.finished)) ∧
      (start s).published = s.published
    unfold start
    rcases hth with h | h | h <;> simp [h, hspin]

theorem run_after_stop (lib : DvLib) (ids : SliceMethod) (steps : List Step) (s : Node)
    (h : s.m_spin_thread = false ∧
      (s.m_accumulation_thread = ThreadState.joined ∨
        s.m_accumulation_thread = ThreadState.check ∨
        s.m_accumulation_thread = ThreadState.finished)) :
    (run lib ids s steps).published = s.published := by
  induction steps generalizing s with
  | nil => rfl
  | cons st rest ih =>
    have hs := step_after_stop lib ids s st h
    have h2 : run lib ids s (st :: rest) = run lib ids (step lib ids s st) rest := rfl
    rw [h2, ih (step lib ids s st) hs.1, hs.2]

/-- C7. On a node whose accumulation thread was started and not yet joined, `stop`
returns (given fuel for the queue and three more steps) without exception, with
the flag false and the thread joined. A drain in progress at the call is
completed first: every slice of the queue being drained yields its frame, in
order. If the thread was elsewhere, nothing more is published. After `stop` has
returned, no run of batches, thread steps or `start` calls publishes anything. -/
theorem stop_joins_thread (lib : DvLib) (ids : SliceMethod) (s : Node) (fuel : Nat)
    (hth : s.m_accumulation_thread ≠ ThreadState.notStarted ∧
      s.m_accumulation_thread ≠ ThreadState.joined)
    (hfuel : s.m_event_queue.length + 3 ≤ fuel) :
    ∃ t, stop lib fuel s = some (t, none) ∧
      isRunning t = false ∧
      t.m_accumulation_thread = ThreadState.joined ∧
      (∀ a, s.m_accumulation_thread = ThreadState.drain → s.m_accumulator = some a →
        t.published = s.published ++ framesOf lib a s.m_event_queue ∧
        t.m_event_queue = [] ∧
        t.m_accumulator = some (acceptAll a s.m_event_queue)) ∧
      (s.m_accumulation_thread ≠ ThreadState.drain → t.published = s.published) ∧
      ∀ steps : List Step, (run lib ids t steps).published = t.published := by
  have key : ∃ r, accumulate lib fuel { s with m_spin_thread := false } = r ∧
      r.m_accumulation_thread = ThreadState.finished ∧ r.m_spin_thread = false ∧
      (∀ a, s.m_accumulation_thread = ThreadState.drain → s.m_accumulator = some a →
        r.published = s.published ++ framesOf lib a s.m_event_queue ∧
        r.m_event_queue = [] ∧
        r.m_accumulator = some (acceptAll a s.m_event_queue)) ∧
      (s.m_accumulation_thread ≠ ThreadState.drain → r.published = s.published) := by
    have hcases : s.m_accumulation_thread = ThreadState.check ∨
        s.m_accumulation_thread = ThreadState.sleep ∨
        s.m_accumulation_thread = ThreadState.finished ∨
        s.m_accumulation_thread = ThreadState.drain := by
      obtain ⟨h1, h2⟩ := hth
      cases h : s.m_accumulation_thread <;> simp_all
    rcases hcases with hcase | hcase | hcase | hcase
    · exact ⟨_, accumulate_check lib fuel { s with m_spin_thread := false } hcase rfl (by omega),
        rfl, rfl, (by intro a h; rw [hcase] at h; cases h), fun _ => rfl⟩
    · exact ⟨_, accumulate_sleep lib fuel { s with m_spin_thread := false } hcase rfl (by omega),
        rfl, rfl, (by intro a h; rw [hcase] at h; cases h), fun _ => rfl⟩
    · exact ⟨_, accumulate_finished lib fuel { s with m_spin_thread := false } hcase,
        hcase, rfl, (by intro a h; rw [hcase] at h; cases h), fun _ => rfl⟩
    · have hopt : s.m_accumulator = none ∨ ∃ a, s.m_accumulator = some a := by
        cases s.m_accumulator <;> simp
      rcases hopt with hacc | ⟨a, hacc⟩
      · exact ⟨_, accumulate_drain_null lib fuel { s with m_spin_thread := false } hcase rfl hacc
          (by omega), rfl, rfl, (by intro a _ h; rw [hacc] at h; cases h), fun _ => rfl⟩
      · refine ⟨_, accumulate_drain lib s.m_event_queue fuel { s with m_spin_thread := false } a
          hcase rfl hacc rfl hfuel, rfl, rfl, ?_, fun h => absurd hcase h⟩
        intro a2 _ ha2
        rw [hacc] at ha2
        cases ha2
        exact ⟨rfl, rfl, rfl⟩
  obtain ⟨r, hrun, hfin, hspin, hdrain, hother⟩ := key
  refine ⟨{ r with m_accumulation_thread := ThreadState.joined },
    stop_eq lib fuel s r hth hrun hfin, hspin, rfl, hdrain, hother, ?_⟩
  intro steps
  exact run_after_stop lib ids steps _ ⟨hspin, Or.inl rfl⟩

/-- Witness for C7: `stop` on a thread that is inside `consume_all` with one slice
queued. -/
theorem stop_joins_thread_witness :
    ∃ t, stop sampleLib 4 { drainingNode with m_event_queue := [sampleBatch.events] }
        = some (t, none) ∧
      isRunning t = false ∧
      t.m_accumulation_thread = ThreadState.joined ∧
      (∀ a, ThreadState.drain = ThreadState.drain →
        some ((DvAccumulator.new 4 3).applySettings sampleParams) = some a →
        t.published = [] ++ framesOf sampleLib a [sampleBatch.events] ∧
        t.m_event_queue = [] ∧
        t.m_accumulator = some (acceptAll a [sampleBatch.events])) ∧
      (ThreadState.drain ≠ ThreadState.drain → t.published = []) ∧
      ∀ steps : List Step, (run sampleLib sampleIds t steps).published = t.published :=
  stop_joins_thread sampleLib sampleIds
    { drainingNode with m_event_queue := [sampleBatch.events] } 4 (by decide) (by decide)

end dv_ros2_accumulation
